import Mathlib

/-!
Shallow embedding of the script-execution core of `bitcoin-script-manual.js`:
the `Stack` class, the mock opcode executors (`OP_DUP`, `OP_HASH160`,
`OP_EQUALVERIFY`, `OP_CHECKSIG`, `OP_EQUAL`), the two demo runs (P2PKH and
P2SH) with their `stack.peek() === 1` acceptance check, and a spec-modelled
`CHECKMULTISIG` (the repository has no implementation of that opcode).
-/

namespace BitcoinScript

/-- JavaScript values that flow on the demo stack: strings (signatures, keys,
hashes) and numbers (the `1`/`0` pushed by `OP_CHECKSIG` and `OP_EQUAL`).
`===` between a string and a number is `false`, which `DecidableEq` mirrors. -/
inductive Val where
  | str : String → Val
  | num : Nat → Val
deriving DecidableEq

/-- JavaScript template-literal conversion used by `` `hash-${item}` ``:
strings stay as-is, numbers render in decimal. -/
def Val.jsString : Val → String
  | .str s => s
  | .num n => toString n

/-- The `Stack` class holds `this.items`; we keep the list top-first
(`push` conses, matching `items.push`/`items.pop` acting on the array end). -/
abbrev JStack := List Val

namespace Stack

/-- `push(item)`: appends the item (the JS return value, the new length,
is ignored by every caller, so we return the new stack). -/
def push (s : JStack) (item : Val) : JStack := item :: s

/-- `pop()`: returns `null` (here `none`) if `items.length === 0`, leaving
the stack empty; otherwise removes and returns the top item. -/
def pop (s : JStack) : Option Val × JStack :=
  match s with
  | [] => (none, [])
  | x :: rest => (some x, rest)

/-- `peek()`: returns `null` (here `none`) if empty, otherwise the top item,
without removing it. -/
def peek (s : JStack) : Option Val :=
  match s with
  | [] => none
  | x :: _ => some x

end Stack

/-- `OP_DUP(stack)`: peeks the top; on `null` returns `false`, else pushes a
copy and returns `true`. -/
def OP_DUP (stack : JStack) : Bool × JStack :=
  match Stack.peek stack with
  | none => (false, stack)
  | some item => (true, Stack.push stack item)

/-- The source's mock hash: `` `hash-${item}` `` ("Simulate hashing by adding
'hash-' prefix"). -/
def hash160 (item : Val) : Val := Val.str ("hash-" ++ item.jsString)

/-- `OP_HASH160(stack)`: pops the top; on `null` returns `false`, else pushes
the mock hash and returns `true`. -/
def OP_HASH160 (stack : JStack) : Bool × JStack :=
  match Stack.pop stack with
  | (none, s) => (false, s)
  | (some item, s) => (true, Stack.push s (hash160 item))

/-- `OP_EQUALVERIFY(stack)`: pops `b`, then pops `a` (both pops happen before
the `null` check, so a lone item is consumed); returns `false` if either was
`null`, else returns `a === b`. Nothing is pushed. -/
def OP_EQUALVERIFY (stack : JStack) : Bool × JStack :=
  let pb := Stack.pop stack
  let pa := Stack.pop pb.2
  match pa.1, pb.1 with
  | some a, some b => (decide (a = b), pa.2)
  | _, _ => (false, pa.2)

/-- `OP_CHECKSIG(stack, publicKey, signature)`: pops `pubKey`, then pops
`sig`; returns `false` if either was `null`; else pushes `1` when both match
the expected `publicKey`/`signature` parameters and `0` otherwise, and
returns `true` in both cases. -/
def OP_CHECKSIG (stack : JStack) (publicKey signature : Val) : Bool × JStack :=
  let pk := Stack.pop stack
  let sg := Stack.pop pk.2
  match pk.1, sg.1 with
  | some pubKey, some sig =>
    (true, Stack.push sg.2 (if pubKey = publicKey ∧ sig = signature then Val.num 1 else Val.num 0))
  | _, _ => (false, sg.2)

/-- `OP_EQUAL(stack)`: pops `b`, then pops `a`; returns `false` if either was
`null`; else pushes `a === b ? 1 : 0` and returns `true`. -/
def OP_EQUAL (stack : JStack) : Bool × JStack :=
  let pb := Stack.pop stack
  let pa := Stack.pop pb.2
  match pa.1, pb.1 with
  | some a, some b => (true, Stack.push pa.2 (if a = b then Val.num 1 else Val.num 0))
  | _, _ => (false, pa.2)

/-- The acceptance check both demos apply to the final stack:
`stack.peek() === 1 ? 'VALID' : 'INVALID'`. -/
def validationResult (s : JStack) : Bool := decide (Stack.peek s = some (Val.num 1))

/-- The P2PKH demo run: push `sig`, push `pk`, `OP_DUP`, `OP_HASH160`, push
`pkh`, `OP_EQUALVERIFY`, `OP_CHECKSIG(·, publicKey, signature)`; every
opcode executes unconditionally (the demo only logs the returned booleans).
Returns the list of opcode results and the final stack. -/
def p2pkhRun (sig pk pkh publicKey signature : Val) : List Bool × JStack :=
  let s2 := Stack.push (Stack.push [] sig) pk
  let r3 := OP_DUP s2
  let r4 := OP_HASH160 r3.2
  let s5 := Stack.push r4.2 pkh
  let r6 := OP_EQUALVERIFY s5
  let r7 := OP_CHECKSIG r6.2 publicKey signature
  ([r3.1, r4.1, r6.1, r7.1], r7.2)

/-- The P2SH demo run: push `sig1`, push `sig2`, push `redeemScript`,
`OP_HASH160`, push `rsHash`, `OP_EQUAL`. Returns the opcode results and the
final stack. -/
def p2shRun (sig1 sig2 redeemScript rsHash : Val) : List Bool × JStack :=
  let s3 := Stack.push (Stack.push (Stack.push [] sig1) sig2) redeemScript
  let r4 := OP_HASH160 s3
  let s5 := Stack.push r4.2 rsHash
  let r6 := OP_EQUAL s5
  ([r4.1, r6.1], r6.2)

/-- Modelled from the spec: the in-order greedy signature matcher of
`CHECKMULTISIG` (the repository's sources contain no implementation of this
opcode, only prose). Walks public keys left to right, consuming the next
unmatched signature when it verifies against the current key; succeeds only
if all signatures are consumed by the time keys are exhausted. -/
def matchSigs (verify : Val → Val → Bool) : List Val → List Val → Bool
  | sigs, [] => sigs.isEmpty
  | [], _ :: _ => true
  | s :: ss, k :: ks =>
    if verify s k then matchSigs verify ss ks else matchSigs verify (s :: ss) ks

/-- Modelled from the spec: pop a count, which must be a number item. -/
def popCount (s : List Val) : Option (Nat × List Val) :=
  match s with
  | Val.num n :: rest => some (n, rest)
  | _ => none

/-- Modelled from the spec: pop `n` items, in pop order (top first). -/
def popItems : Nat → List Val → Option (List Val × List Val)
  | 0, s => some ([], s)
  | _ + 1, [] => none
  | n + 1, x :: rest =>
    match popItems n rest with
    | none => none
    | some (xs, s) => some (x :: xs, s)

/-- Modelled from the spec: `CHECKMULTISIG` pops `n`, pops `n` public keys,
pops `m`, pops `m` signatures, pops one extra dummy element, matches the
signatures to the keys in order, and pushes `1`/`0` accordingly. -/
def OP_CHECKMULTISIG (verify : Val → Val → Bool) (stack : List Val) : Option (List Val) :=
  match popCount stack with
  | none => none
  | some (n, s1) =>
    match popItems n s1 with
    | none => none
    | some (keysRev, s2) =>
      match popCount s2 with
      | none => none
      | some (m, s3) =>
        match popItems m s3 with
        | none => none
        | some (sigsRev, s4) =>
          match s4 with
          | [] => none
          | _ :: s5 =>
            some ((if matchSigs verify sigsRev.reverse keysRev.reverse
                   then Val.num 1 else Val.num 0) :: s5)

/-- Modelled from the spec: the stack just before `CHECKMULTISIG` runs, after
the unlocking data pushed the dummy element and the `m` signatures and the
`multisig(m, pubkeys)` script pushed `m`, the keys, and `n` (top-first list:
`n`, keys reversed, `m`, signatures reversed, dummy). -/
def multisigStack (keys sigs : List Val) (dummy : Val) : List Val :=
  Val.num keys.length :: (keys.reverse ++ (Val.num sigs.length :: (sigs.reverse ++ [dummy])))

/-- C10: pop and peek applied to an empty Stack yield a defined failure value
(`none`, the embedding of JS `null`) rather than undefined behavior, and
leave the stack empty. -/
theorem stack_pop_peek_empty :
    Stack.pop ([] : JStack) = (none, []) ∧ Stack.peek ([] : JStack) = none :=
  ⟨rfl, rfl⟩

/-- C7: applied to a stack containing exactly one element, OP_EQUAL,
OP_EQUALVERIFY and OP_CHECKSIG all report failure (`false`), but the lone
element has already been popped: the resulting stack is empty, not
unchanged. -/
theorem singleton_underflow_pops (x publicKey signature : Val) :
    OP_EQUAL [x] = (false, [])
  ∧ OP_EQUALVERIFY [x] = (false, [])
  ∧ OP_CHECKSIG [x] publicKey signature = (false, []) :=
  ⟨rfl, rfl, rfl⟩

/-- C4: on any stack with at least two items, OP_CHECKSIG pops the public key
(top), then pops the signature, pushes `1` exactly when both match the
expected values and `0` otherwise, and returns `true` in every case — a
failed verification pushes `0` and lets evaluation continue, never aborts. -/
theorem checksig_pops_and_pushes (x y : Val) (rest : JStack) (publicKey signature : Val) :
    OP_CHECKSIG (x :: y :: rest) publicKey signature
      = (true, (if x = publicKey ∧ y = signature then Val.num 1 else Val.num 0) :: rest) :=
  rfl

/-- C9: every opcode executor is deterministic: run on stacks with identical
contents (and identical expected public key and signature for OP_CHECKSIG),
it returns identical results and leaves identical final stacks. -/
theorem opcode_executors_deterministic (s1 s2 : JStack) (publicKey signature : Val)
    (h : s1 = s2) :
    OP_DUP s1 = OP_DUP s2
  ∧ OP_HASH160 s1 = OP_HASH160 s2
  ∧ OP_EQUALVERIFY s1 = OP_EQUALVERIFY s2
  ∧ OP_CHECKSIG s1 publicKey signature = OP_CHECKSIG s2 publicKey signature
  ∧ OP_EQUAL s1 = OP_EQUAL s2 := by
  subst h
  exact ⟨rfl, rfl, rfl, rfl, rfl⟩

/-- Witness for C9 at a concrete stack. -/
theorem opcode_executors_deterministic_witness :
    OP_DUP [Val.str "a"] = OP_DUP [Val.str "a"]
  ∧ OP_HASH160 [Val.str "a"] = OP_HASH160 [Val.str "a"]
  ∧ OP_EQUALVERIFY [Val.str "a"] = OP_EQUALVERIFY [Val.str "a"]
  ∧ OP_CHECKSIG [Val.str "a"] (Val.str "pk") (Val.str "sig")
      = OP_CHECKSIG [Val.str "a"] (Val.str "pk") (Val.str "sig")
  ∧ OP_EQUAL [Val.str "a"] = OP_EQUAL [Val.str "a"] :=
  opcode_executors_deterministic [Val.str "a"] [Val.str "a"] (Val.str "pk") (Val.str "sig") rfl

/-- C8: OP_EQUAL pops two items and pushes `1` if they are equal and `0`
otherwise, returning `true` (it never fails on content); and on any stack it
reports failure exactly when fewer than two items are present. -/
theorem equal_total_on_content (a b : Val) (rest : JStack) (s : JStack) :
    OP_EQUAL (a :: b :: rest) = (true, (if a = b then Val.num 1 else Val.num 0) :: rest)
  ∧ ((OP_EQUAL s).1 = false ↔ s.length < 2) := by
  constructor
  · by_cases h : a = b
    · subst h
      simp [OP_EQUAL, Stack.pop, Stack.push]
    · simp [OP_EQUAL, Stack.pop, Stack.push, h, Ne.symm h]
  · match s with
    | [] => simp [OP_EQUAL, Stack.pop]
    | [x] => simp [OP_EQUAL, Stack.pop]
    | x :: y :: t => simp [OP_EQUAL, Stack.pop, Stack.push]

/-- C3: OP_EQUAL is symmetric — swapping the top two items yields the same
result and final stack — and, on any stack with at least two items,
OP_EQUALVERIFY reports the failure that aborts evaluation exactly when
OP_EQUAL on the same stack would have pushed the falsy value `0`. -/
theorem equal_symmetric_equalverify_abort (a b : Val) (rest : JStack) :
    OP_EQUAL (a :: b :: rest) = OP_EQUAL (b :: a :: rest)
  ∧ ((OP_EQUALVERIFY (a :: b :: rest)).1 = false
      ↔ Stack.peek (OP_EQUAL (a :: b :: rest)).2 = some (Val.num 0)) := by
  by_cases h : a = b
  · subst h
    simp [OP_EQUAL, OP_EQUALVERIFY, Stack.pop, Stack.push, Stack.peek]
  · constructor
    · simp [OP_EQUAL, Stack.pop, Stack.push, h, Ne.symm h]
    · simp [OP_EQUAL, OP_EQUALVERIFY, Stack.pop, Stack.push, Stack.peek, Ne.symm h]

/-- C2: unlocking with `[sig, pubkey]` against the P2PKH demo script built
over `pkh = hash160(pubkey)`, with `sig` the expected signature, leaves final
stack `[1]` and verdict Valid; replacing `sig` by any other value leaves
`[0]` and verdict Invalid while every opcode still returns `true` — the
failure is a falsy OP_CHECKSIG push, not a StackUnderflow. -/
theorem p2pkh_scenario (sig pk badSig : Val) (hbad : badSig ≠ sig) :
    p2pkhRun sig pk (hash160 pk) pk sig = ([true, true, true, true], [Val.num 1])
  ∧ validationResult (p2pkhRun sig pk (hash160 pk) pk sig).2 = true
  ∧ p2pkhRun badSig pk (hash160 pk) pk sig = ([true, true, true, true], [Val.num 0])
  ∧ validationResult (p2pkhRun badSig pk (hash160 pk) pk sig).2 = false := by
  refine ⟨?_, ?_, ?_, ?_⟩ <;>
    simp [p2pkhRun, OP_DUP, OP_HASH160, OP_EQUALVERIFY, OP_CHECKSIG,
      Stack.push, Stack.pop, Stack.peek, validationResult, hbad]

/-- Witness for C2 with the demo's constants and a 71-zero-character invalid
signature. -/
theorem p2pkh_scenario_witness :
    p2pkhRun (Val.str "valid-signature") (Val.str "actual-public-key")
        (hash160 (Val.str "actual-public-key"))
        (Val.str "actual-public-key") (Val.str "valid-signature")
      = ([true, true, true, true], [Val.num 1])
  ∧ validationResult (p2pkhRun (Val.str "valid-signature") (Val.str "actual-public-key")
        (hash160 (Val.str "actual-public-key"))
        (Val.str "actual-public-key") (Val.str "valid-signature")).2 = true
  ∧ p2pkhRun (Val.str "00000000000000000000000000000000000000000000000000000000000000000000000")
        (Val.str "actual-public-key") (hash160 (Val.str "actual-public-key"))
        (Val.str "actual-public-key") (Val.str "valid-signature")
      = ([true, true, true, true], [Val.num 0])
  ∧ validationResult (p2pkhRun
        (Val.str "00000000000000000000000000000000000000000000000000000000000000000000000")
        (Val.str "actual-public-key") (hash160 (Val.str "actual-public-key"))
        (Val.str "actual-public-key") (Val.str "valid-signature")).2 = false :=
  p2pkh_scenario (Val.str "valid-signature") (Val.str "actual-public-key")
    (Val.str "00000000000000000000000000000000000000000000000000000000000000000000000")
    (by decide)

/-- C1 counterexample: with the demo's own constants, the P2SH run is
declared VALID although three items remain on the final stack (not exactly
one), and a P2PKH run whose EQUALVERIFY fails still executes OP_CHECKSIG and
is declared VALID — so evaluation neither requires a single remaining item
nor aborts on an EQUALVERIFY failure. -/
theorem acceptance_rule_counterexample :
    (p2shRun (Val.str "signature-1") (Val.str "signature-2") (Val.str "redeem-script")
        (Val.str "hash-redeem-script")).2.length = 3
  ∧ validationResult (p2shRun (Val.str "signature-1") (Val.str "signature-2")
        (Val.str "redeem-script") (Val.str "hash-redeem-script")).2 = true
  ∧ (p2pkhRun (Val.str "valid-signature") (Val.str "actual-public-key") (Val.str "wrong-hash")
        (Val.str "actual-public-key") (Val.str "valid-signature")).1
      = [true, true, false, true]
  ∧ validationResult (p2pkhRun (Val.str "valid-signature") (Val.str "actual-public-key")
        (Val.str "wrong-hash") (Val.str "actual-public-key") (Val.str "valid-signature")).2
      = true := by
  decide

/-- C1 amended: a combined script run is accepted exactly when the final
stack's top item is the number `1` (`stack.peek() === 1`); acceptance does
not require exactly one remaining item (the P2SH run succeeds with three),
and an EQUALVERIFY failure does not abort the run — the remaining opcodes
still execute and can still make the run accepted. -/
theorem acceptance_rule_amended (sig pk pkh s1 s2 rs : Val) (s : JStack)
    (h : pkh ≠ hash160 pk) :
    p2shRun s1 s2 rs (hash160 rs) = ([true, true], [Val.num 1, s2, s1])
  ∧ validationResult [Val.num 1, s2, s1] = true
  ∧ p2pkhRun sig pk pkh pk sig = ([true, true, false, true], [Val.num 1])
  ∧ (validationResult s = true ↔ Stack.peek s = some (Val.num 1)) := by
  refine ⟨?_, ?_, ?_, ?_⟩
  · simp [p2shRun, OP_HASH160, OP_EQUAL, Stack.push, Stack.pop]
  · simp [validationResult, Stack.peek]
  · simp [p2pkhRun, OP_DUP, OP_HASH160, OP_EQUALVERIFY, OP_CHECKSIG,
      Stack.push, Stack.pop, Stack.peek, Ne.symm h]
  · simp [validationResult]

/-- Witness for the amended C1 at concrete values. -/
theorem acceptance_rule_amended_witness :
    p2shRun (Val.str "signature-1") (Val.str "signature-2") (Val.str "redeem-script")
        (hash160 (Val.str "redeem-script"))
      = ([true, true], [Val.num 1, Val.str "signature-2", Val.str "signature-1"])
  ∧ validationResult [Val.num 1, Val.str "signature-2", Val.str "signature-1"] = true
  ∧ p2pkhRun (Val.str "valid-signature") (Val.str "actual-public-key") (Val.str "wrong-hash")
        (Val.str "actual-public-key") (Val.str "valid-signature")
      = ([true, true, false, true], [Val.num 1])
  ∧ (validationResult [Val.num 1] = true ↔ Stack.peek [Val.num 1] = some (Val.num 1)) :=
  acceptance_rule_amended (Val.str "valid-signature") (Val.str "actual-public-key")
    (Val.str "wrong-hash") (Val.str "signature-1") (Val.str "signature-2")
    (Val.str "redeem-script") [Val.num 1] (by decide)

/-- C5 counterexample: on the stack `["x"]`, OP_HASH160 pushes the string
`"hash-x"`, whose length is 6, not a 20-byte RIPEMD160(SHA256(·)) digest. -/
theorem hash160_not_real_hash :
    OP_HASH160 [Val.str "x"] = (true, [Val.str "hash-x"])
  ∧ String.length "hash-x" ≠ 20 := by
  decide

/-- C5 amended: on any non-empty stack, OP_HASH160 pops the top element and
pushes the mock hash — the string `"hash-"` prepended to the element's
JavaScript string rendering — and returns `true`. -/
theorem hash160_mock_push (v : Val) (rest : JStack) :
    OP_HASH160 (v :: rest) = (true, Val.str ("hash-" ++ v.jsString) :: rest) :=
  rfl

/-- Popping `l.length` items from `l ++ rest` yields exactly `l` and `rest`. -/
theorem popItems_append (l rest : List Val) :
    popItems l.length (l ++ rest) = some (l, rest) := by
  induction l with
  | nil => rfl
  | cons x xs ih => simp [popItems, ih]

/-- Evaluating the spec-modelled CHECKMULTISIG on the canonical multisig
stack reduces to the in-order greedy matcher on the keys and signatures in
script order, leaving only the pushed verdict. -/
theorem OP_CHECKMULTISIG_run (verify : Val → Val → Bool) (keys sigs : List Val) (dummy : Val) :
    OP_CHECKMULTISIG verify (multisigStack keys sigs dummy)
      = some [if matchSigs verify sigs keys then Val.num 1 else Val.num 0] := by
  have h1 : popItems keys.length
      (keys.reverse ++ (Val.num sigs.length :: (sigs.reverse ++ [dummy])))
      = some (keys.reverse, Val.num sigs.length :: (sigs.reverse ++ [dummy])) := by
    rw [← List.length_reverse keys]
    exact popItems_append _ _
  have h2 : popItems sigs.length (sigs.reverse ++ [dummy]) = some (sigs.reverse, [dummy]) := by
    rw [← List.length_reverse sigs]
    exact popItems_append _ _
  simp [OP_CHECKMULTISIG, multisigStack, popCount, h1, h2]

/-- When each signature is valid exactly for its own key (key images under
`sigOf` are duplicate-free), the greedy matcher accepts the signatures of any
in-order subset of the keys. -/
theorem matchSigs_of_sublist (sigOf : Val → Val) (sel keys : List Val)
    (hsub : List.Sublist sel keys) :
    (keys.map sigOf).Nodup →
      matchSigs (fun s k => decide (s = sigOf k)) (sel.map sigOf) keys = true := by
  induction hsub with
  | slnil => intro _; rfl
  | cons a hsub ih =>
    rename_i l1 l2
    intro hnodup
    rw [List.map_cons, List.nodup_cons] at hnodup
    obtain ⟨hna, hnd⟩ := hnodup
    cases l1 with
    | nil => rfl
    | cons c cs =>
      have hcm : sigOf c ∈ l2.map sigOf :=
        List.mem_map_of_mem sigOf (hsub.subset (List.mem_cons_self c cs))
      have hne : ¬ (sigOf c = sigOf a) := fun he => hna (he ▸ hcm)
      have ihr := ih hnd
      simp only [List.map_cons] at ihr ⊢
      simp [matchSigs, hne, ihr]
  | cons₂ a hsub ih =>
    intro hnodup
    rw [List.map_cons, List.nodup_cons] at hnodup
    simp [matchSigs, ih hnodup.2]

/-- Whatever the greedy matcher accepts is, as a list, an in-order selection
of the images of the keys. -/
theorem sublist_of_matchSigs (sigOf : Val → Val) :
    ∀ (keys sigs : List Val),
      matchSigs (fun s k => decide (s = sigOf k)) sigs keys = true →
      List.Sublist sigs (keys.map sigOf) := by
  intro keys
  induction keys with
  | nil =>
    intro sigs h
    cases sigs with
    | nil => exact List.nil_sublist _
    | cons s ss => exact absurd h (by simp [matchSigs])
  | cons k ks ih =>
    intro sigs h
    cases sigs with
    | nil => exact List.nil_sublist _
    | cons s ss =>
      by_cases hv : s = sigOf k
      · have h2 : matchSigs (fun s k => decide (s = sigOf k)) ss ks = true := by
          simpa [matchSigs, hv] using h
        rw [List.map_cons, hv]
        exact List.Sublist.cons₂ _ (ih ss h2)
      · have h2 : matchSigs (fun s k => decide (s = sigOf k)) (s :: ss) ks = true := by
          simpa [matchSigs, hv] using h
        rw [List.map_cons]
        exact List.Sublist.cons _ (ih (s :: ss) h2)

/-- A sublist relation between images under a map whose restriction to the
right list is duplicate-free, together with membership of the left elements
in the right list, lifts back to a sublist relation on the lists. -/
theorem sublist_of_map_sublist (f : Val → Val) :
    ∀ (keys l : List Val), List.Sublist (l.map f) (keys.map f) → (keys.map f).Nodup →
      (∀ x ∈ l, x ∈ keys) → List.Sublist l keys := by
  intro keys
  induction keys with
  | nil =>
    intro l h _ _
    have h0 : l.map f = [] := List.sublist_nil.mp h
    have h1 : l = [] := by simpa using h0
    simp [h1]
  | cons k ks ih =>
    intro l h hnodup hmem
    rw [List.map_cons, List.nodup_cons] at hnodup
    obtain ⟨hfk, hnd⟩ := hnodup
    cases l with
    | nil => exact List.nil_sublist _
    | cons a t =>
      rw [List.map_cons, List.map_cons, List.cons_sublist_cons'] at h
      cases h with
      | inl h1 =>
        have hmem2 : ∀ x ∈ a :: t, x ∈ ks := by
          intro x hx
          cases List.mem_cons.mp (hmem x hx) with
          | inl he =>
            exfalso
            apply hfk
            have h3 : f x ∈ (a :: t).map f := List.mem_map_of_mem f hx
            have h4 : f x ∈ ks.map f := h1.subset (by simpa using h3)
            rwa [he] at h4
          | inr h2 => exact h2
        exact List.Sublist.cons _ (ih (a :: t) (by simpa using h1) hnd hmem2)
      | inr h1 =>
        obtain ⟨hfa, h2⟩ := h1
        have hak : a = k := by
          cases List.mem_cons.mp (hmem a (List.mem_cons_self a t)) with
          | inl he => exact he
          | inr hin =>
            exfalso
            apply hfk
            have h3 : f a ∈ ks.map f := List.mem_map_of_mem f hin
            rwa [hfa] at h3
        subst hak
        have hmem2 : ∀ x ∈ t, x ∈ ks := by
          intro x hx
          cases List.mem_cons.mp (hmem x (List.mem_cons_of_mem _ hx)) with
          | inl he =>
            exfalso
            apply hfk
            have h3 : f x ∈ ks.map f := h2.subset (List.mem_map_of_mem f hx)
            rwa [he] at h3
          | inr h3 => exact h3
        exact List.Sublist.cons₂ _ (ih t h2 hnd hmem2)

/-- In a duplicate-free list, two distinct elements cannot each precede the
other: `[a, b]` and `[b, a]` cannot both be sublists. -/
theorem pair_sublist_asymm (a b : Val) :
    ∀ (m : List Val), a ≠ b → m.Nodup →
      List.Sublist [a, b] m → List.Sublist [b, a] m → False := by
  intro m
  induction m with
  | nil =>
    intro _ _ h1 _
    exact absurd (List.sublist_nil.mp h1) (by simp)
  | cons x ms ih =>
    intro hab hnd h1 h2
    rw [List.nodup_cons] at hnd
    obtain ⟨hx, hnd2⟩ := hnd
    rw [List.cons_sublist_cons'] at h1 h2
    cases h1 with
    | inl h1 =>
      cases h2 with
      | inl h2 => exact ih hab hnd2 h1 h2
      | inr h2 =>
        obtain ⟨hbx, _⟩ := h2
        apply hx
        rw [← hbx]
        exact h1.subset (by simp)
    | inr h1 =>
      obtain ⟨hax, _⟩ := h1
      cases h2 with
      | inl h2 =>
        apply hx
        rw [← hax]
        exact h2.subset (by simp)
      | inr h2 =>
        obtain ⟨hbx, _⟩ := h2
        exact hab (hax.trans hbx.symm)

/-- A duplicate-free list cannot contain both a list of length at least two
and its reversal as sublists. -/
theorem reverse_not_sublist (l m : List Val) (h1 : List.Sublist l m)
    (h2 : List.Sublist l.reverse m) (hnd : m.Nodup) (hlen : 2 ≤ l.length) : False := by
  obtain ⟨a, b, t, rfl⟩ : ∃ a b t, l = a :: b :: t := by
    match l, hlen with
    | a :: b :: t, _ => exact ⟨a, b, t, rfl⟩
  have hlnd : (a :: b :: t).Nodup := List.Nodup.sublist h1 hnd
  have hab : a ≠ b := by
    rw [List.nodup_cons] at hlnd
    exact fun he => hlnd.1 (he ▸ List.mem_cons_self b t)
  have hp1 : List.Sublist [a, b] (a :: b :: t) :=
    List.Sublist.cons₂ _ (List.Sublist.cons₂ _ (List.nil_sublist t))
  have hp2 : List.Sublist [b, a] (a :: b :: t).reverse := by
    rw [List.reverse_cons, List.reverse_cons, List.append_assoc]
    exact List.sublist_append_right _ _
  exact pair_sublist_asymm a b m hab hnd (hp1.trans h1) (hp2.trans h2)

/-- Presenting the signatures of an in-order key subset in reversed relative
order makes the greedy matcher fail, whenever the subset has at least two
keys and key images are duplicate-free. -/
theorem matchSigs_reverse_false (sigOf : Val → Val) (keys sel : List Val)
    (hsub : List.Sublist sel keys) (hnodup : (keys.map sigOf).Nodup)
    (hlen : 2 ≤ sel.length) :
    matchSigs (fun s k => decide (s = sigOf k)) ((sel.map sigOf).reverse) keys = false := by
  cases hb : matchSigs (fun s k => decide (s = sigOf k)) ((sel.map sigOf).reverse) keys with
  | false => rfl
  | true =>
    exfalso
    have h1 : List.Sublist ((sel.map sigOf).reverse) (keys.map sigOf) :=
      sublist_of_matchSigs sigOf keys _ hb
    have h2 : List.Sublist (sel.reverse.map sigOf) (keys.map sigOf) := by
      rw [List.map_reverse]
      exact h1
    have hmem : ∀ x ∈ sel.reverse, x ∈ keys := fun x hx =>
      hsub.subset (List.mem_reverse.mp hx)
    have h3 : List.Sublist sel.reverse keys :=
      sublist_of_map_sublist sigOf keys sel.reverse h2 hnodup hmem
    exact reverse_not_sublist sel keys hsub h3 (List.Nodup.of_map sigOf hnodup) hlen

/-- C6 (spec-modelled): with each signature valid exactly for its own key,
CHECKMULTISIG over the canonical multisig stack pushes `1` when the
signatures of an in-order subset of the keys are presented in key order, and
pushes `0` when the same signatures are presented in reversed relative
order (for any subset of at least two keys). -/
theorem checkmultisig_order_matters (sigOf : Val → Val) (keys sel : List Val) (dummy : Val)
    (hsub : List.Sublist sel keys) (hnodup : (keys.map sigOf).Nodup)
    (hlen : 2 ≤ sel.length) :
    OP_CHECKMULTISIG (fun s k => decide (s = sigOf k))
        (multisigStack keys (sel.map sigOf) dummy) = some [Val.num 1]
  ∧ OP_CHECKMULTISIG (fun s k => decide (s = sigOf k))
        (multisigStack keys ((sel.map sigOf).reverse) dummy) = some [Val.num 0]
  ∧ (∀ sigs, OP_CHECKMULTISIG (fun s k => decide (s = sigOf k))
        (multisigStack keys sigs dummy) = some [Val.num 1] →
      List.Sublist sigs (keys.map sigOf)) := by
  refine ⟨?_, ?_, ?_⟩
  · rw [OP_CHECKMULTISIG_run, matchSigs_of_sublist sigOf sel keys hsub hnodup]
    simp
  · rw [OP_CHECKMULTISIG_run, matchSigs_reverse_false sigOf keys sel hsub hnodup hlen]
    simp
  · intro sigs hs
    rw [OP_CHECKMULTISIG_run] at hs
    cases hm : matchSigs (fun s k => decide (s = sigOf k)) sigs keys with
    | true => exact sublist_of_matchSigs sigOf keys sigs hm
    | false =>
      rw [hm] at hs
      simp at hs

/-- Witness for C6: keys A, B, C with signature scheme `sig-` ++ key; the
in-order pair of signatures for A and C is accepted, the reversed pair is
rejected. -/
theorem checkmultisig_order_matters_witness :
    OP_CHECKMULTISIG (fun s k => decide (s = Val.str ("sig-" ++ k.jsString)))
        (multisigStack [Val.str "A", Val.str "B", Val.str "C"]
          ([Val.str "A", Val.str "C"].map (fun k => Val.str ("sig-" ++ k.jsString)))
          (Val.num 0)) = some [Val.num 1]
  ∧ OP_CHECKMULTISIG (fun s k => decide (s = Val.str ("sig-" ++ k.jsString)))
        (multisigStack [Val.str "A", Val.str "B", Val.str "C"]
          (([Val.str "A", Val.str "C"].map (fun k => Val.str ("sig-" ++ k.jsString))).reverse)
          (Val.num 0)) = some [Val.num 0] :=
  And.intro
    (checkmultisig_order_matters (fun k => Val.str ("sig-" ++ k.jsString))
      [Val.str "A", Val.str "B", Val.str "C"] [Val.str "A", Val.str "C"] (Val.num 0)
      (by decide) (by decide) (by decide)).1
    (checkmultisig_order_matters (fun k => Val.str ("sig-" ++ k.jsString))
      [Val.str "A", Val.str "B", Val.str "C"] [Val.str "A", Val.str "C"] (Val.num 0)
      (by decide) (by decide) (by decide)).2.1

end BitcoinScript
